import Mathlib

/-!
Shallow embedding of the market-making simulator
(`src/models/market_making.py`, `src/utils/helpers.py`).

Machine floats are modelled as real numbers; the global numpy random
generator is modelled as two explicit streams of draws (normal draws and
uniform draws) that are consumed in program order.  Python exceptions are
modelled with `Except SimError`; in-place mutation of objects is modelled
by explicit state passing, a function returning the updated state together
with its result.
-/

noncomputable section

/-- The exception kinds raised by the source code:
`invalidArgument` — `ValueError("Time step must be positive.")`;
`unsupportedModel` — `ValueError("Unsupported model type ...")`;
`degenerateStatistics` — `ValueError("Standard deviation of returns cannot be zero.")`;
`unsupportedParameter`, `unsupportedScenario` — the `ValueError`s of the
sensitivity and stress sweeps; `typeError` — Python `TypeError` (e.g. `len()`
of a scalar); `valueError` — `ValueError` of `calculate_pnl` on mismatched
lengths; `emptyReduction` — `ValueError` raised by `np.max` on an empty array. -/
inductive SimError where
  | invalidArgument
  | unsupportedModel
  | degenerateStatistics
  | unsupportedParameter
  | unsupportedScenario
  | typeError
  | valueError
  | emptyReduction
  deriving DecidableEq, Repr

/-- numpy mean of a list (`l.sum / l.length`; unused on empty input). -/
def meanR (l : List ℝ) : ℝ := l.sum / l.length

/-- numpy population variance (`ddof = 0`): mean of squared deviations. -/
def varR (l : List ℝ) : ℝ := (l.map (fun x => (x - meanR l) ^ 2)).sum / l.length

/-- Model of numpy `std`: square root of the population variance. -/
def stdR (l : List ℝ) : ℝ := Real.sqrt (varR l)

/-- Model of `np.diff`: successive differences of a list. -/
def npDiff (xs : List ℝ) : List ℝ := List.zipWith (fun a b => b - a) xs xs.tail

/-- Model of `np.cumsum`: running sums. -/
def npCumsum (xs : List ℝ) : List ℝ := (xs.scanl (· + ·) 0).tail

/-- Model of `np.maximum.accumulate`: running maxima. -/
def runningMax : List ℝ → List ℝ
  | [] => []
  | x :: xs => xs.scanl max x

/-- Model of `np.max`: raises `ValueError` on an empty array, otherwise the maximum. -/
def npMax : List ℝ → Except SimError ℝ
  | [] => .error .emptyReduction
  | x :: xs => .ok (xs.foldl max x)

/-- Model of `np.dot` of two equal-length vectors. -/
def npDot (xs ys : List ℝ) : ℝ := (List.zipWith (· * ·) xs ys).sum

/-- A Python value that is either a numeric scalar or a list of numbers:
`calculate_pnl` is documented for lists but one call site passes scalars,
and `len()` distinguishes the two at runtime. -/
inductive PyVec where
  | scalar (x : ℝ)
  | list (xs : List ℝ)

/-- Python `len()`: raises `TypeError` on a scalar. -/
def pyLen : PyVec → Except SimError ℕ
  | .scalar _ => .error .typeError
  | .list xs => .ok xs.length

/-- Model of `helpers.calculate_pnl(prices, inventory)`: checks `len(prices) != len(inventory)`
(so a scalar argument raises `TypeError` from `len`, the `prices` one first),
then returns `np.dot(prices, inventory)`. -/
def calculate_pnl (prices inventory : PyVec) : Except SimError ℝ :=
  match pyLen prices with
  | .error e => .error e
  | .ok lp =>
    match pyLen inventory with
    | .error e => .error e
    | .ok li =>
      if lp ≠ li then .error .valueError
      else
        match prices, inventory with
        | .list ps, .list is => .ok (npDot ps is)
        | _, _ => .error .typeError   -- unreachable: both lens succeeded

/-- Model of `helpers.calculate_sharpe_ratio(returns, risk_free_rate)`:
empty input returns `None` (modelled `ok none`); zero standard deviation of
the input raises `ValueError` (modelled `degenerateStatistics`); otherwise
`excess_returns.mean() / excess_returns.std()` with
`excess_returns = returns - risk_free_rate`. -/
def calculate_sharpe_ratio (returns : List ℝ) (risk_free_rate : ℝ) :
    Except SimError (Option ℝ) :=
  if returns.length = 0 then .ok none
  else if stdR returns = 0 then .error .degenerateStatistics
  else
    let excess_returns := returns.map (fun r => r - risk_free_rate)
    .ok (some (meanR excess_returns / stdR excess_returns))

/-- A recorded trade (`{"size": ..., "price": ..., "type": ...}`). -/
structure Trade where
  size : ℝ
  price : ℝ
  type : String

/-- State of a `MidPriceModel` instance. -/
structure MidPriceModel where
  price : ℝ
  volatility : ℝ
  risk_free_rate : ℝ
  model_type : String

/-- State of a `TradeExecution` instance. -/
structure TradeExecution where
  execution_probability : ℝ

/-- State of a `MarketMaker` instance. -/
structure MarketMaker where
  mid_price_model : MidPriceModel
  trade_execution : TradeExecution
  risk_aversion : ℝ
  base_intensity : ℝ
  sensitivity : ℝ
  inventory : ℝ
  trades : List Trade
  pnl : ℝ

/-- Model of `MidPriceModel.simulate_price_dynamics(time_step)` with the normal draw
`z` made explicit.  Returns the (possibly) updated instance together with
the result; on a raise the instance is returned unchanged. -/
def simulate_price_dynamics (m : MidPriceModel) (time_step z : ℝ) :
    MidPriceModel × Except SimError ℝ :=
  if time_step ≤ 0 then (m, .error .invalidArgument)
  else
    let drift := (m.risk_free_rate - 0.5 * m.volatility ^ 2) * time_step
    let shock := m.volatility * Real.sqrt time_step * z
    if m.model_type = "GBM" then
      let newPrice := m.price * Real.exp (drift + shock)
      ({ m with price := newPrice }, .ok newPrice)
    else (m, .error .unsupportedModel)

/-- Model of `TradeExecution.calculate_execution_intensity(quote_distance)`:
`A * exp(-k * quote_distance)` with the fixed local constants `A = 1.0`,
`k = 0.1`; the instance (`te`) is not read. -/
def calculate_execution_intensity (te : TradeExecution) (quote_distance : ℝ) : ℝ :=
  1.0 * Real.exp (-(0.1) * quote_distance)

/-- Model of `MarketMaker.calculate_optimal_quotes(volatility)`: the Avellaneda–Stoikov
closed form, returning `(delta_b, delta_a)`. -/
def calculate_optimal_quotes (mm : MarketMaker) (volatility : ℝ) : ℝ × ℝ :=
  let half_spread := mm.risk_aversion * volatility ^ 2 / (2 * mm.base_intensity)
  let inventory_adjustment := mm.inventory * mm.risk_aversion * volatility
  (half_spread - inventory_adjustment, half_spread + inventory_adjustment)

/-- Model of `MarketMaker.calculate_sharpe_ratio()` (the method): fewer than two
trades or a zero standard deviation of the price differences yields `0`;
otherwise the value of the helper (the guards ensure the helper returns a number,
`getD` merely extracts it). -/
def mm_calculate_sharpe_ratio (trades : List Trade) : Except SimError ℝ :=
  if trades.length < 2 then .ok 0
  else
    let returns := npDiff (trades.map Trade.price)
    if stdR returns = 0 then .ok 0
    else (calculate_sharpe_ratio returns 0).map (fun o => o.getD 0)

/-- Model of `MarketMaker.log_performance()`: cumulative P&L over recorded trades,
Sharpe of the price differences (`None` modelled as `none`), Sortino
(`inf` when no downside returns, modelled as `none`) and maximum drawdown
(`np.max` raising on an empty array). -/
def log_performance (trades : List Trade) :
    Except SimError (ℝ × Option ℝ × Option ℝ × ℝ) :=
  let prices := trades.map Trade.price
  let inv := trades.map Trade.size
  match calculate_pnl (.list prices) (.list inv) with
  | .error e => .error e
  | .ok pnl =>
    let returns := npDiff prices
    match calculate_sharpe_ratio returns 0 with
    | .error e => .error e
    | .ok sharpe =>
      let downside := returns.filter (fun r => r < 0)
      let sortino : Option ℝ :=
        if 0 < downside.length then some (meanR returns / stdR downside) else none
      let cumulative := npCumsum returns
      let peak := runningMax cumulative
      let drawdown := List.zipWith (fun p c => p - c) peak cumulative
      match npMax drawdown with
      | .error e => .error e
      | .ok max_drawdown => .ok (pnl, sharpe, sortino, max_drawdown)

/-- Result of `MarketMaker.run_simulation`: the mutated instance, the unread
remainders of the two random streams, and the message printed by the
`except` handler (`none` when nothing was caught).  The handler swallows the
exception, so the function always returns normally. -/
structure RunResult where
  state : MarketMaker
  normals : List ℝ
  uniforms : List ℝ
  caught : Option SimError

/-- One iteration of the `run_simulation` loop body, with the normal
draw `z` of the step and the two uniform draws `u1`, `u2` made explicit: advance the
price, compute quotes from the current volatility and inventory, and run
one independent fill trial per side (`intensity > uniform`). -/
def runSimulationStep (mm : MarketMaker) (z u1 u2 : ℝ) :
    MarketMaker × Option SimError :=
  let pr := simulate_price_dynamics mm.mid_price_model 1 z
  let mm1 := { mm with mid_price_model := pr.1 }
  match pr.2 with
  | .error e => (mm1, some e)
  | .ok mid_price =>
    let q := calculate_optimal_quotes mm1 mm1.mid_price_model.volatility
    let delta_b := q.1
    let delta_a := q.2
    let bid_price := mid_price - delta_b
    let ask_price := mid_price + delta_a
    let mm2 :=
      if calculate_execution_intensity mm1.trade_execution delta_b > u1 then
        { mm1 with inventory := mm1.inventory + 1, pnl := mm1.pnl - bid_price }
      else mm1
    let mm3 :=
      if calculate_execution_intensity mm2.trade_execution delta_a > u2 then
        { mm2 with inventory := mm2.inventory - 1, pnl := mm2.pnl + ask_price }
      else mm2
    (mm3, none)

/-- The `for step in range(steps)` loop of `run_simulation`: each iteration
consumes one normal draw, and two uniform draws unless the price step
raised; a raise stops the loop with the partially mutated state. -/
def runSimulationLoop : MarketMaker → ℕ → List ℝ → List ℝ → RunResult
  | mm, 0, ns, us => ⟨mm, ns, us, none⟩
  | mm, steps + 1, ns, us =>
    let st := runSimulationStep mm (ns.headD 0) (us.headD 0) (us.tail.headD 0)
    match st.2 with
    | some e => ⟨st.1, ns.tail, us, some e⟩
    | none => runSimulationLoop st.1 steps ns.tail us.tail.tail

/-- Model of `MarketMaker.run_simulation(steps)`: the whole body — the step loop
followed by `log_performance` — sits inside `try/except Exception`, whose
handler prints the error and returns normally; `caught` records what was
printed. -/
def run_simulation (mm : MarketMaker) (steps : ℕ) (ns us : List ℝ) : RunResult :=
  let r := runSimulationLoop mm steps ns us
  match r.caught with
  | some _ => r
  | none =>
    match log_performance r.state.trades with
    | .error e => ⟨r.state, r.normals, r.uniforms, some e⟩
    | .ok _ => ⟨r.state, r.normals, r.uniforms, none⟩

/-- Result of a batch operation: the mutated shared instance, stream
remainders, and either the aggregate value or the propagated exception. -/
structure BatchResult (α : Type) where
  state : MarketMaker
  normals : List ℝ
  uniforms : List ℝ
  result : Except SimError α

/-- The `for _ in range(num_simulations)` loop of
`run_monte_carlo_simulation`: every replica calls `run_simulation` on the
same instance `mm`, then computes
`calculate_pnl(self.mid_price_model.price, self.inventory)` — scalar
arguments — and the Sharpe method, accumulating both; exceptions raised
here (unlike inside `run_simulation`) propagate. -/
def runMonteCarloLoop :
    MarketMaker → ℕ → ℕ → List ℝ → List ℝ → List ℝ → List ℝ → BatchResult (ℝ × ℝ)
  | mm, 0, _, ns, us, pnls, sharpes => ⟨mm, ns, us, .ok (meanR pnls, meanR sharpes)⟩
  | mm, n + 1, steps, ns, us, pnls, sharpes =>
    let r := run_simulation mm steps ns us
    match calculate_pnl (.scalar r.state.mid_price_model.price)
        (.scalar r.state.inventory) with
    | .error e => ⟨r.state, r.normals, r.uniforms, .error e⟩
    | .ok pnl =>
      match mm_calculate_sharpe_ratio r.state.trades with
      | .error e => ⟨r.state, r.normals, r.uniforms, .error e⟩
      | .ok sharpe =>
        runMonteCarloLoop r.state n steps r.normals r.uniforms
          (pnls ++ [pnl]) (sharpes ++ [sharpe])

/-- Model of `MarketMaker.run_monte_carlo_simulation(num_simulations, steps)`:
returns `(average_pnl, average_sharpe_ratio)` on success. -/
def run_monte_carlo_simulation (mm : MarketMaker) (num_simulations steps : ℕ)
    (ns us : List ℝ) : BatchResult (ℝ × ℝ) :=
  runMonteCarloLoop mm num_simulations steps ns us [] []

/-- The `for scenario in stress_scenarios` loop of `run_stress_test`:
mutate the parameter of the scenario, run a Monte Carlo batch of 10 replicas,
record the aggregate, then execute the reset lines
`volatility /= (2 if scenario == "high_volatility" else 1)` and
`execution_probability *= (2 if scenario == "low_liquidity" else 1)`
(the conditional expression is the right-hand side of the augmented
assignment).
An unsupported scenario name, or any exception out of the batch, propagates
at once, before the reset lines run. -/
def runStressTestLoop :
    MarketMaker → List String → ℕ → List ℝ → List ℝ →
      List (String × ℝ × ℝ) → BatchResult (List (String × ℝ × ℝ))
  | mm, [], _, ns, us, acc => ⟨mm, ns, us, .ok acc⟩
  | mm, scenario :: rest, steps, ns, us, acc =>
    let mutated : Except SimError MarketMaker :=
      if scenario = "high_volatility" then
        .ok { mm with mid_price_model :=
          { mm.mid_price_model with volatility := mm.mid_price_model.volatility * 2 } }
      else if scenario = "low_liquidity" then
        .ok { mm with trade_execution :=
          ⟨mm.trade_execution.execution_probability / 2⟩ }
      else .error .unsupportedScenario
    match mutated with
    | .error e => ⟨mm, ns, us, .error e⟩
    | .ok mm1 =>
      let mc := run_monte_carlo_simulation mm1 10 steps ns us
      match mc.result with
      | .error e => ⟨mc.state, mc.normals, mc.uniforms, .error e⟩
      | .ok a =>
        let mm2 := { mc.state with mid_price_model :=
          { mc.state.mid_price_model with volatility :=
            mc.state.mid_price_model.volatility /
              (if scenario = "high_volatility" then 2 else 1) } }
        let mm3 := { mm2 with trade_execution :=
          ⟨mm2.trade_execution.execution_probability *
            (if scenario = "low_liquidity" then 2 else 1)⟩ }
        runStressTestLoop mm3 rest steps mc.normals mc.uniforms
          (acc ++ [(scenario, a.1, a.2)])

/-- Model of `MarketMaker.run_stress_test(stress_scenarios, steps)`. -/
def run_stress_test (mm : MarketMaker) (scenarios : List String) (steps : ℕ)
    (ns us : List ℝ) : BatchResult (List (String × ℝ × ℝ)) :=
  runStressTestLoop mm scenarios steps ns us []

/-- The `for value in parameter_values` loop of `run_sensitivity_analysis`:
set the named parameter on the shared instances, run a Monte Carlo batch of
10 replicas, record the aggregate keyed by the value.  An unsupported
parameter name, or any exception out of the batch, propagates. -/
def runSensitivityLoop :
    MarketMaker → String → List ℝ → ℕ → List ℝ → List ℝ →
      List (ℝ × ℝ × ℝ) → BatchResult (List (ℝ × ℝ × ℝ))
  | mm, _, [], _, ns, us, acc => ⟨mm, ns, us, .ok acc⟩
  | mm, parameter_name, value :: rest, steps, ns, us, acc =>
    let set : Except SimError MarketMaker :=
      if parameter_name = "volatility" then
        .ok { mm with mid_price_model :=
          { mm.mid_price_model with volatility := value } }
      else if parameter_name = "execution_probability" then
        .ok { mm with trade_execution := ⟨value⟩ }
      else .error .unsupportedParameter
    match set with
    | .error e => ⟨mm, ns, us, .error e⟩
    | .ok mm1 =>
      let mc := run_monte_carlo_simulation mm1 10 steps ns us
      match mc.result with
      | .error e => ⟨mc.state, mc.normals, mc.uniforms, .error e⟩
      | .ok a =>
        runSensitivityLoop mc.state parameter_name rest steps mc.normals
          mc.uniforms (acc ++ [(value, a.1, a.2)])

/-- Model of `MarketMaker.run_sensitivity_analysis(parameter_name, parameter_values, steps)`. -/
def run_sensitivity_analysis (mm : MarketMaker) (parameter_name : String)
    (parameter_values : List ℝ) (steps : ℕ) (ns us : List ℝ) :
    BatchResult (List (ℝ × ℝ × ℝ)) :=
  runSensitivityLoop mm parameter_name parameter_values steps ns us []

/-- Repeated application of the price step with a fixed time step, one
normal draw per step. -/
def iterate_price_dynamics (m : MidPriceModel) (dt : ℝ) : List ℝ → MidPriceModel
  | [] => m
  | z :: zs => iterate_price_dynamics (simulate_price_dynamics m dt z).1 dt zs

/-- A baseline `MarketMaker` instance used for concrete evaluations. -/
def mmGBM : MarketMaker :=
  { mid_price_model := ⟨100, 1/5, 0, "GBM"⟩
    trade_execution := ⟨1/2⟩
    risk_aversion := 1/10
    base_intensity := 1
    sensitivity := 1/10
    inventory := 0
    trades := []
    pnl := 0 }

/-- The baseline instance with an unsupported price model identifier. -/
def mmBad : MarketMaker :=
  { mmGBM with mid_price_model := ⟨100, 1/5, 0, "ABC"⟩ }

/-- The baseline instance holding a large inventory. -/
def mmBig : MarketMaker := { mmGBM with inventory := 10 }

/-! ## Basic lemmas about the price step and the fill intensity -/

lemma spd_nonpos (m : MidPriceModel) (t z : ℝ) (h : t ≤ 0) :
    simulate_price_dynamics m t z = (m, .error .invalidArgument) := by
  simp [simulate_price_dynamics, h]

lemma spd_gbm (m : MidPriceModel) (t z : ℝ) (ht : 0 < t)
    (hm : m.model_type = "GBM") :
    simulate_price_dynamics m t z =
      ({ m with price := m.price *
          Real.exp ((m.risk_free_rate - 0.5 * m.volatility ^ 2) * t +
            m.volatility * Real.sqrt t * z) },
       .ok (m.price *
          Real.exp ((m.risk_free_rate - 0.5 * m.volatility ^ 2) * t +
            m.volatility * Real.sqrt t * z))) := by
  simp [simulate_price_dynamics, not_le.mpr ht, hm]

lemma spd_other (m : MidPriceModel) (t z : ℝ) (ht : 0 < t)
    (hm : m.model_type ≠ "GBM") :
    simulate_price_dynamics m t z = (m, .error .unsupportedModel) := by
  simp [simulate_price_dynamics, not_le.mpr ht, hm]

lemma spd_price_pos (m : MidPriceModel) (t z : ℝ) (ht : 0 < t)
    (hp : 0 < m.price) : 0 < (simulate_price_dynamics m t z).1.price := by
  by_cases hm : m.model_type = "GBM"
  · rw [spd_gbm m t z ht hm]
    exact mul_pos hp (Real.exp_pos _)
  · rw [spd_other m t z ht hm]
    exact hp

lemma intensity_eq (te : TradeExecution) (d : ℝ) :
    calculate_execution_intensity te d = Real.exp (-(0.1) * d) := by
  rw [calculate_execution_intensity]
  norm_num

lemma intensity_antitone (te : TradeExecution) (d1 d2 : ℝ) (h : d1 ≤ d2) :
    calculate_execution_intensity te d2 ≤ calculate_execution_intensity te d1 := by
  rw [intensity_eq, intensity_eq]
  exact Real.exp_le_exp.mpr (by linarith)

lemma intensity_pos (te : TradeExecution) (d : ℝ) :
    0 < calculate_execution_intensity te d := by
  rw [intensity_eq]; exact Real.exp_pos _

lemma intensity_le_one (te : TradeExecution) (d : ℝ) (h : 0 ≤ d) :
    calculate_execution_intensity te d ≤ 1 := by
  rw [intensity_eq]
  calc Real.exp (-(0.1) * d) ≤ Real.exp 0 := Real.exp_le_exp.mpr (by linarith)
    _ = 1 := Real.exp_zero

/-! ## C3 -/

/-- C3: `simulate_price_dynamics` fails with `InvalidArgument` and leaves the
price unchanged when `dt ≤ 0`; for `dt > 0` under the GBM model it updates
the price to `price * exp(drift + shock)` with
`drift = (risk_free_rate - 0.5·volatility²)·dt` and
`shock = volatility·sqrt(dt)·Z`, returning the new price; any other model
identifier fails with `UnsupportedModel` (price unchanged). -/
theorem C3_price_step_contract (m : MidPriceModel) (dt z : ℝ) :
    (dt ≤ 0 → simulate_price_dynamics m dt z = (m, .error .invalidArgument)) ∧
    (0 < dt → m.model_type = "GBM" →
      simulate_price_dynamics m dt z =
        ({ m with price := m.price *
            Real.exp ((m.risk_free_rate - 0.5 * m.volatility ^ 2) * dt +
              m.volatility * Real.sqrt dt * z) },
         .ok (m.price *
            Real.exp ((m.risk_free_rate - 0.5 * m.volatility ^ 2) * dt +
              m.volatility * Real.sqrt dt * z)))) ∧
    (0 < dt → m.model_type ≠ "GBM" →
      simulate_price_dynamics m dt z = (m, .error .unsupportedModel)) :=
  ⟨spd_nonpos m dt z, spd_gbm m dt z, spd_other m dt z⟩

/-- Witness for C3: the three arms at concrete inputs. -/
theorem C3_price_step_contract_witness :
    simulate_price_dynamics ⟨100, 1/5, 0, "GBM"⟩ 0 0 =
      (⟨100, 1/5, 0, "GBM"⟩, .error .invalidArgument) ∧
    simulate_price_dynamics ⟨100, 1/5, 0, "ABC"⟩ 1 0 =
      (⟨100, 1/5, 0, "ABC"⟩, .error .unsupportedModel) :=
  ⟨(C3_price_step_contract ⟨100, 1/5, 0, "GBM"⟩ 0 0).1 le_rfl,
   (C3_price_step_contract ⟨100, 1/5, 0, "ABC"⟩ 1 0).2.2 one_pos (by decide)⟩

/-! ## C8 -/

/-- C8: for a strictly positive time step and any sequence of normal draws,
repeated application of the price step preserves strict positivity of the
price. -/
theorem C8_price_positive (m : MidPriceModel) (dt : ℝ) (zs : List ℝ)
    (ht : 0 < dt) (hp : 0 < m.price) :
    0 < (iterate_price_dynamics m dt zs).price := by
  induction zs generalizing m with
  | nil => exact hp
  | cons z zs ih =>
    exact ih _ (spd_price_pos m dt z ht hp)

/-- Witness for C8 at a concrete starting state and draw sequence. -/
theorem C8_price_positive_witness :
    (0:ℝ) < 1 ∧ (0:ℝ) < 100 ∧
      0 < (iterate_price_dynamics ⟨100, 1/5, 0, "GBM"⟩ 1 [0, 1, -2]).price :=
  ⟨one_pos, by norm_num,
    C8_price_positive ⟨100, 1/5, 0, "GBM"⟩ 1 [0, 1, -2] one_pos (by norm_num)⟩

/-! ## C4 -/

/-- Counterexample for C4: the source applies no clamp, and at the negative
quote distance `-10` the returned intensity is `exp 1 > 1`, so the result is
not `base_intensity·exp(-k·distance)` clamped to `[0, 1]` and does not lie
in `[0, 1]`. -/
theorem C4_counterexample : 1 < calculate_execution_intensity ⟨1/2⟩ (-10) := by
  have h : calculate_execution_intensity ⟨1/2⟩ (-10) = Real.exp 1 := by
    rw [intensity_eq]; norm_num
  rw [h]
  have h2 := Real.add_one_le_exp 1
  linarith

/-- C4 amended: `calculate_execution_intensity` returns the unclamped value
`base_intensity·exp(-k·distance)`; it is monotonically non-increasing in the
distance and lies in `(0, 1]` for non-negative distances, but exceeds `1`
for negative distances, and it never reads the instance. -/
theorem C4_amended_intensity (te : TradeExecution) (d1 d2 : ℝ) :
    (d1 ≤ d2 →
      calculate_execution_intensity te d2 ≤ calculate_execution_intensity te d1) ∧
    (0 ≤ d1 →
      0 < calculate_execution_intensity te d1 ∧
        calculate_execution_intensity te d1 ≤ 1) :=
  ⟨intensity_antitone te d1 d2,
   fun h => ⟨intensity_pos te d1, intensity_le_one te d1 h⟩⟩

/-- Witness for the amended C4 at concrete distances. -/
theorem C4_amended_intensity_witness :
    calculate_execution_intensity ⟨1/2⟩ 1 ≤ calculate_execution_intensity ⟨1/2⟩ 0 ∧
    0 < calculate_execution_intensity ⟨1/2⟩ 0 ∧
      calculate_execution_intensity ⟨1/2⟩ 0 ≤ 1 :=
  ⟨(C4_amended_intensity ⟨1/2⟩ 0 1).1 (by norm_num),
   (C4_amended_intensity ⟨1/2⟩ 0 1).2 le_rfl⟩

/-! ## C5 -/

/-- Counterexample for C5: no epsilon floor exists in the source; with
inventory `10`, volatility `1/5`, risk aversion `1/10` and base intensity
`1`, the bid distance is `-99/500 < 0` and the derived bid price
`100 - delta_b` exceeds the mid price `100` — a crossed quote. -/
theorem C5_counterexample :
    (calculate_optimal_quotes mmBig (1/5)).1 < 0 ∧
    (100:ℝ) < 100 - (calculate_optimal_quotes mmBig (1/5)).1 := by
  have h : (calculate_optimal_quotes mmBig (1/5)).1 = -(99/500 : ℝ) := by
    simp [calculate_optimal_quotes, mmBig, mmGBM]
    norm_num
  rw [h]
  norm_num

/-- C5 amended: the source applies no floor, and a large inventory can make
a distance negative (see the counterexample); whenever both returned
distances happen to be strictly positive the derived quotes satisfy
`bid_price < mid_price < ask_price`. -/
theorem C5_amended_quotes (mm : MarketMaker) (vol mid : ℝ)
    (hb : 0 < (calculate_optimal_quotes mm vol).1)
    (ha : 0 < (calculate_optimal_quotes mm vol).2) :
    mid - (calculate_optimal_quotes mm vol).1 < mid ∧
      mid < mid + (calculate_optimal_quotes mm vol).2 :=
  ⟨by linarith, by linarith⟩

/-- Witness for the amended C5: with zero inventory both distances are the
positive half spread `1/500`, and the quotes straddle the mid price. -/
theorem C5_amended_quotes_witness :
    (100:ℝ) - (calculate_optimal_quotes mmGBM (1/5)).1 < 100 ∧
      (100:ℝ) < 100 + (calculate_optimal_quotes mmGBM (1/5)).2 := by
  have hq : calculate_optimal_quotes mmGBM (1/5) = (1/500, 1/500) := by
    simp [calculate_optimal_quotes, mmGBM]
    norm_num
  exact C5_amended_quotes mmGBM (1/5) 100 (by rw [hq]; norm_num)
    (by rw [hq]; norm_num)

/-! ## C6 -/

/-- C6: `calculate_sharpe_ratio` returns the null sentinel on an empty
series, fails with `DegenerateStatistics` on a non-empty series of zero
standard deviation, and otherwise returns
`mean(excess) / std(excess)` for `excess = returns - risk_free_rate`. -/
theorem C6_sharpe_contract (returns : List ℝ) (risk_free_rate : ℝ) :
    (returns = [] →
      calculate_sharpe_ratio returns risk_free_rate = .ok none) ∧
    (returns ≠ [] → stdR returns = 0 →
      calculate_sharpe_ratio returns risk_free_rate = .error .degenerateStatistics) ∧
    (returns ≠ [] → stdR returns ≠ 0 →
      calculate_sharpe_ratio returns risk_free_rate =
        .ok (some (meanR (returns.map (fun r => r - risk_free_rate)) /
          stdR (returns.map (fun r => r - risk_free_rate))))) := by
  refine ⟨fun h => ?_, fun h h0 => ?_, fun h h0 => ?_⟩
  · subst h; rfl
  · rw [calculate_sharpe_ratio, if_neg (by simpa using h), if_pos h0]
  · rw [calculate_sharpe_ratio, if_neg (by simpa using h), if_neg h0]

/-- Witness for C6: all three arms at concrete series. -/
theorem C6_sharpe_contract_witness :
    calculate_sharpe_ratio [] 0 = .ok none ∧
    calculate_sharpe_ratio [5, 5] 0 = .error .degenerateStatistics ∧
    calculate_sharpe_ratio [0, 2] 0 =
      .ok (some (meanR ([0, 2].map (fun r => r - 0)) /
        stdR ([0, 2].map (fun r => r - 0)))) := by
  have hz : stdR [5, 5] = 0 := by
    have hv : varR [5, 5] = 0 := by
      norm_num [varR, meanR]
    rw [stdR, hv, Real.sqrt_zero]
  have hnz : stdR [0, 2] ≠ 0 := by
    have hv : varR [0, 2] = 1 := by
      norm_num [varR, meanR]
    rw [stdR, hv, Real.sqrt_one]
    norm_num
  exact ⟨(C6_sharpe_contract [] 0).1 rfl,
    (C6_sharpe_contract [5, 5] 0).2.1 (by simp) hz,
    (C6_sharpe_contract [0, 2] 0).2.2 (by simp) hnz⟩

/-! ## Lemmas about the simulation runner -/

lemma runSimulationStep_trades (mm : MarketMaker) (z u1 u2 : ℝ) :
    (runSimulationStep mm z u1 u2).1.trades = mm.trades := by
  unfold runSimulationStep
  dsimp only
  split
  · rfl
  · split <;> split <;> rfl

lemma runSimulationLoop_trades (steps : ℕ) (mm : MarketMaker) (ns us : List ℝ) :
    (runSimulationLoop mm steps ns us).state.trades = mm.trades := by
  induction steps generalizing mm ns us with
  | zero => rfl
  | succ k ih =>
    rw [runSimulationLoop]
    split
    · exact runSimulationStep_trades mm _ _ _
    · rw [ih]
      exact runSimulationStep_trades mm _ _ _

lemma run_simulation_trades (mm : MarketMaker) (steps : ℕ) (ns us : List ℝ) :
    (run_simulation mm steps ns us).state.trades = mm.trades := by
  rw [run_simulation]
  split
  · exact runSimulationLoop_trades steps mm ns us
  · split <;> exact runSimulationLoop_trades steps mm ns us

lemma runSimulationStep_nonGBM (mm : MarketMaker) (z u1 u2 : ℝ)
    (h : mm.mid_price_model.model_type ≠ "GBM") :
    runSimulationStep mm z u1 u2 = (mm, some .unsupportedModel) := by
  unfold runSimulationStep
  rw [spd_other mm.mid_price_model 1 z one_pos h]

lemma runSimulationLoop_nonGBM (mm : MarketMaker) (k : ℕ) (ns us : List ℝ)
    (h : mm.mid_price_model.model_type ≠ "GBM") :
    runSimulationLoop mm (k + 1) ns us = ⟨mm, ns.tail, us, some .unsupportedModel⟩ := by
  rw [runSimulationLoop]
  rw [runSimulationStep_nonGBM mm _ _ _ h]

lemma run_simulation_nonGBM (mm : MarketMaker) (steps : ℕ) (ns us : List ℝ)
    (hs : 1 ≤ steps) (h : mm.mid_price_model.model_type ≠ "GBM") :
    run_simulation mm steps ns us = ⟨mm, ns.tail, us, some .unsupportedModel⟩ := by
  obtain ⟨k, rfl⟩ : ∃ k, steps = k + 1 :=
    ⟨steps - 1, (Nat.succ_pred_eq_of_pos hs).symm⟩
  rw [run_simulation, runSimulationLoop_nonGBM mm k ns us h]

lemma calculate_pnl_scalar (x : ℝ) (v : PyVec) :
    calculate_pnl (.scalar x) v = .error .typeError := rfl

lemma runMonteCarloLoop_abort (mm : MarketMaker) (n steps : ℕ)
    (ns us pnls sharpes : List ℝ) :
    runMonteCarloLoop mm (n + 1) steps ns us pnls sharpes =
      ⟨(run_simulation mm steps ns us).state,
       (run_simulation mm steps ns us).normals,
       (run_simulation mm steps ns us).uniforms, .error .typeError⟩ := by
  rw [runMonteCarloLoop, calculate_pnl_scalar]

lemma run_monte_carlo_abort (mm : MarketMaker) (n steps : ℕ) (ns us : List ℝ)
    (hn : 1 ≤ n) :
    run_monte_carlo_simulation mm n steps ns us =
      ⟨(run_simulation mm steps ns us).state,
       (run_simulation mm steps ns us).normals,
       (run_simulation mm steps ns us).uniforms, .error .typeError⟩ := by
  obtain ⟨k, rfl⟩ : ∃ k, n = k + 1 := ⟨n - 1, (Nat.succ_pred_eq_of_pos hn).symm⟩
  rw [run_monte_carlo_simulation, runMonteCarloLoop_abort]

/-! ## C10 -/

/-- C10: `run_simulation` never appends to the trades list — the step loop
and the whole call leave `trades` exactly as it was — so the end-of-run
metrics (`log_performance`, applied to the final `trades`) are computed over
only whatever trades other operations recorded before the call. -/
theorem C10_trades_frame (mm : MarketMaker) (steps : ℕ) (ns us : List ℝ) :
    (runSimulationLoop mm steps ns us).state.trades = mm.trades ∧
    (run_simulation mm steps ns us).state.trades = mm.trades :=
  ⟨runSimulationLoop_trades steps mm ns us, run_simulation_trades mm steps ns us⟩

/-! ## C1 -/

/-- Counterexample for C1: for a `MarketMaker` whose price model identifier
is not `"GBM"`, the first step of `run_simulation` fails (the loop records
`UnsupportedModel`), yet `run_simulation` returns normally — the
`try/except` handler catches the error and merely prints it (`caught`), so
nothing propagates to the caller; and the Monte Carlo batch over this
failing configuration aborts with an unrelated `TypeError` from its own
aggregation code, not with the step error of the replica. -/
theorem C1_counterexample :
    (runSimulationLoop mmBad 1 [0] [0, 0]).caught = some .unsupportedModel ∧
    run_simulation mmBad 1 [0] [0, 0] = ⟨mmBad, [], [0, 0], some .unsupportedModel⟩ ∧
    (run_monte_carlo_simulation mmBad 1 1 [0] [0, 0]).result = .error .typeError := by
  have hm : mmBad.mid_price_model.model_type ≠ "GBM" := by decide
  refine ⟨?_, ?_, ?_⟩
  · rw [runSimulationLoop_nonGBM mmBad 0 [0] [0, 0] hm]
  · exact run_simulation_nonGBM mmBad 1 [0] [0, 0] le_rfl hm
  · rw [run_monte_carlo_abort mmBad 1 1 [0] [0, 0] le_rfl]

/-- C1 amended: a step-level failure does occur inside the run loop, but
the `try/except` handler of `run_simulation` catches it and discards it (printing
only), returning normally with the state as of the failure; callers — in
particular the batch operations — never observe a step-level failure of
a replica. -/
theorem C1_amended_catch (mm : MarketMaker) (steps : ℕ) (ns us : List ℝ)
    (hs : 1 ≤ steps) (h : mm.mid_price_model.model_type ≠ "GBM") :
    (runSimulationLoop mm steps ns us).caught = some .unsupportedModel ∧
    run_simulation mm steps ns us = ⟨mm, ns.tail, us, some .unsupportedModel⟩ := by
  obtain ⟨k, rfl⟩ : ∃ k, steps = k + 1 :=
    ⟨steps - 1, (Nat.succ_pred_eq_of_pos hs).symm⟩
  constructor
  · rw [runSimulationLoop_nonGBM mm k ns us h]
  · exact run_simulation_nonGBM mm (k + 1) ns us hs h

/-- Witness for the amended C1 at a concrete failing configuration. -/
theorem C1_amended_catch_witness :
    (runSimulationLoop mmBad 2 [0, 0] [0, 0]).caught = some .unsupportedModel ∧
    run_simulation mmBad 2 [0, 0] [0, 0] = ⟨mmBad, [0], [0, 0], some .unsupportedModel⟩ :=
  C1_amended_catch mmBad 2 [0, 0] [0, 0] (by norm_num) (by decide)

/-! ## C2 -/

/-- C2 amended: `run_monte_carlo_simulation` does not create fresh runners:
every replica runs on the very same `MarketMaker` instance, whose mutated
state the call returns; and during the aggregation of the first replica it calls
`calculate_pnl` on scalar `price`/`inventory` arguments, which raises
`TypeError`, so the whole batch aborts after the first replica with the
shared, mutated state. -/
theorem C2_amended_shared_state (mm : MarketMaker) (n steps : ℕ)
    (ns us : List ℝ) (hn : 1 ≤ n) :
    run_monte_carlo_simulation mm n steps ns us =
      ⟨(run_simulation mm steps ns us).state,
       (run_simulation mm steps ns us).normals,
       (run_simulation mm steps ns us).uniforms, .error .typeError⟩ :=
  run_monte_carlo_abort mm n steps ns us hn

/-- Witness for the amended C2 at a concrete batch. -/
theorem C2_amended_shared_state_witness :
    run_monte_carlo_simulation mmGBM 2 0 [] [] =
      ⟨(run_simulation mmGBM 0 [] []).state,
       (run_simulation mmGBM 0 [] []).normals,
       (run_simulation mmGBM 0 [] []).uniforms, .error .typeError⟩ :=
  C2_amended_shared_state mmGBM 2 0 [] [] (by norm_num)

lemma log_performance_nil : log_performance [] = .error .emptyReduction := rfl

/-- The baseline instance with zero volatility (the price then stays at
`100` exactly, making the run concretely computable). -/
def mmZeroVol : MarketMaker := { mmGBM with mid_price_model := ⟨100, 0, 0, "GBM"⟩ }

lemma runSimulationStep_gbm_buy_noSell (mm : MarketMaker) (z u1 u2 : ℝ)
    (hm : mm.mid_price_model.model_type = "GBM")
    (hb : u1 < calculate_execution_intensity mm.trade_execution
      (calculate_optimal_quotes mm mm.mid_price_model.volatility).1)
    (ha : calculate_execution_intensity mm.trade_execution
      (calculate_optimal_quotes mm mm.mid_price_model.volatility).2 ≤ u2) :
    (runSimulationStep mm z u1 u2).1.inventory = mm.inventory + 1 ∧
      (runSimulationStep mm z u1 u2).2 = none := by
  unfold runSimulationStep
  rw [spd_gbm mm.mid_price_model 1 z one_pos hm]
  simp only [intensity_eq, calculate_optimal_quotes] at hb ha ⊢
  rw [if_pos hb, if_neg (not_lt.mpr ha)]
  exact ⟨rfl, trivial⟩

/-- Counterexample for C2: at the zero-volatility baseline, a 2-replica
Monte Carlo batch with one step per replica aborts with `TypeError` during
the first replica (so the second replica never runs at all), and the
single shared `MarketMaker` of the caller is left with inventory `1` — the fill
executed by replica 1 persists on the shared instance instead of living in
a fresh, discarded runner. -/
theorem C2_counterexample :
    (run_monte_carlo_simulation mmZeroVol 2 1 [0] [1/2, 1]).result = .error .typeError ∧
    (run_monte_carlo_simulation mmZeroVol 2 1 [0] [1/2, 1]).state.inventory = 1 ∧
    mmZeroVol.inventory = 0 := by
  have hq : calculate_optimal_quotes mmZeroVol mmZeroVol.mid_price_model.volatility
      = (0, 0) := by
    simp [calculate_optimal_quotes, mmZeroVol, mmGBM]
  have hi : calculate_execution_intensity mmZeroVol.trade_execution 0 = 1 := by
    rw [intensity_eq]
    norm_num [Real.exp_zero]
  have hstep := runSimulationStep_gbm_buy_noSell mmZeroVol 0 (1/2) 1 rfl
    (by rw [hq]; simp only [hi]; norm_num)
    (by rw [hq]; simp only [hi]; exact le_refl 1)
  have hloop : runSimulationLoop mmZeroVol 1 [0] [1/2, 1] =
      ⟨(runSimulationStep mmZeroVol 0 (1/2) 1).1, [], [], none⟩ := by
    rw [runSimulationLoop]
    simp only [List.headD_cons, List.tail_cons]
    rw [hstep.2]
    rfl
  have htr : (runSimulationStep mmZeroVol 0 (1/2) 1).1.trades = [] := by
    rw [runSimulationStep_trades]
    rfl
  have hrun : run_simulation mmZeroVol 1 [0] [1/2, 1] =
      ⟨(runSimulationStep mmZeroVol 0 (1/2) 1).1, [], [], some .emptyReduction⟩ := by
    rw [run_simulation, hloop]
    dsimp only
    rw [htr, log_performance_nil]
  have habort := run_monte_carlo_abort mmZeroVol 2 1 [0] [1/2, 1] (by norm_num)
  rw [habort, hrun]
  refine ⟨rfl, ?_, rfl⟩
  dsimp only
  rw [hstep.1]
  show mmZeroVol.inventory + 1 = 1
  norm_num [mmZeroVol, mmGBM]

/-! ## C7 -/

lemma run_simulation_zero_steps (mm : MarketMaker) (ns us : List ℝ)
    (h : mm.trades = []) :
    run_simulation mm 0 ns us = ⟨mm, ns, us, some .emptyReduction⟩ := by
  rw [run_simulation]
  simp only [runSimulationLoop]
  rw [h]
  rfl

/-! ## C9 -/

lemma runSimulationStep_te (mm : MarketMaker) (t : TradeExecution) (z u1 u2 : ℝ) :
    runSimulationStep { mm with trade_execution := t } z u1 u2 =
      ({ (runSimulationStep mm z u1 u2).1 with trade_execution := t },
       (runSimulationStep mm z u1 u2).2) := by
  unfold runSimulationStep
  dsimp only
  rcases h : simulate_price_dynamics mm.mid_price_model 1 z with ⟨p, res⟩
  cases res with
  | error e => rfl
  | ok mid_price =>
    simp only [calculate_execution_intensity, calculate_optimal_quotes]
    split_ifs <;> rfl

lemma runSimulationLoop_te (steps : ℕ) (mm : MarketMaker) (t : TradeExecution)
    (ns us : List ℝ) :
    runSimulationLoop { mm with trade_execution := t } steps ns us =
      ⟨{ (runSimulationLoop mm steps ns us).state with trade_execution := t },
       (runSimulationLoop mm steps ns us).normals,
       (runSimulationLoop mm steps ns us).uniforms,
       (runSimulationLoop mm steps ns us).caught⟩ := by
  induction steps generalizing mm ns us with
  | zero => rfl
  | succ k ih =>
    simp only [runSimulationLoop]
    rw [runSimulationStep_te]
    cases h : (runSimulationStep mm (ns.headD 0) (us.headD 0) (us.tail.headD 0)).2 with
    | some e => rfl
    | none => exact ih _ _ _

lemma run_simulation_te (mm : MarketMaker) (t : TradeExecution) (steps : ℕ)
    (ns us : List ℝ) :
    run_simulation { mm with trade_execution := t } steps ns us =
      ⟨{ (run_simulation mm steps ns us).state with trade_execution := t },
       (run_simulation mm steps ns us).normals,
       (run_simulation mm steps ns us).uniforms,
       (run_simulation mm steps ns us).caught⟩ := by
  simp only [run_simulation]
  rw [runSimulationLoop_te]
  cases h : (runSimulationLoop mm steps ns us).caught with
  | some e =>
    dsimp only
    rw [h]
  | none =>
    dsimp only
    cases hl : log_performance (runSimulationLoop mm steps ns us).state.trades with
    | error e => dsimp only
    | ok v => dsimp only

/-- C9: the fill intensity does not depend on the configured
`execution_probability`: two `TradeExecution` instances that differ only in
that field yield the same intensity at every distance, and a whole
`run_simulation` on two `MarketMaker`s differing only in that field yields
identical prices, inventory, P&L, trades, streams and logged message —
changing the probability never changes a fill outcome. -/
theorem C9_intensity_ignores_probability (p1 p2 d : ℝ) (mm : MarketMaker)
    (steps : ℕ) (ns us : List ℝ) :
    calculate_execution_intensity ⟨p1⟩ d = calculate_execution_intensity ⟨p2⟩ d ∧
    (run_simulation { mm with trade_execution := ⟨p1⟩ } steps ns us).state.mid_price_model =
      (run_simulation { mm with trade_execution := ⟨p2⟩ } steps ns us).state.mid_price_model ∧
    (run_simulation { mm with trade_execution := ⟨p1⟩ } steps ns us).state.inventory =
      (run_simulation { mm with trade_execution := ⟨p2⟩ } steps ns us).state.inventory ∧
    (run_simulation { mm with trade_execution := ⟨p1⟩ } steps ns us).state.pnl =
      (run_simulation { mm with trade_execution := ⟨p2⟩ } steps ns us).state.pnl ∧
    (run_simulation { mm with trade_execution := ⟨p1⟩ } steps ns us).state.trades =
      (run_simulation { mm with trade_execution := ⟨p2⟩ } steps ns us).state.trades ∧
    (run_simulation { mm with trade_execution := ⟨p1⟩ } steps ns us).normals =
      (run_simulation { mm with trade_execution := ⟨p2⟩ } steps ns us).normals ∧
    (run_simulation { mm with trade_execution := ⟨p1⟩ } steps ns us).uniforms =
      (run_simulation { mm with trade_execution := ⟨p2⟩ } steps ns us).uniforms ∧
    (run_simulation { mm with trade_execution := ⟨p1⟩ } steps ns us).caught =
      (run_simulation { mm with trade_execution := ⟨p2⟩ } steps ns us).caught := by
  rw [run_simulation_te mm ⟨p1⟩ steps ns us, run_simulation_te mm ⟨p2⟩ steps ns us]
  exact ⟨rfl, rfl, rfl, rfl, rfl, rfl, rfl, rfl⟩

/-- C7 is a code bug: evaluating `run_stress_test(["high_volatility"], 0)`
at the baseline configuration, the Monte Carlo batch inside the scenario
raises `TypeError` (its aggregation calls `calculate_pnl` on scalar
arguments), the exception propagates out of `run_stress_test` before the
reset lines execute, and the returned state still holds the doubled
volatility — not the pre-call value required by the claim (and by the
`Reset parameters after each scenario` comment in the source). -/
theorem C7_stress_no_restore_eval :
    (run_stress_test mmGBM ["high_volatility"] 0 [] []).result = .error .typeError ∧
    (run_stress_test mmGBM ["high_volatility"] 0 [] []).state.mid_price_model.volatility =
      mmGBM.mid_price_model.volatility * 2 ∧
    mmGBM.mid_price_model.volatility * 2 ≠ mmGBM.mid_price_model.volatility := by
  refine ⟨rfl, rfl, ?_⟩
  show (1/5 : ℝ) * 2 ≠ 1/5
  norm_num

end
